import Mathlib

/-! BaslerCalibration: chessboard calibration driver (`src/main.cpp`)

A shallow embedding of the program's own logic: option parsing, the frame
collection loop, the object-point grid and the hand-off to the solver.

Floating-point values are kept symbolic: a `CDouble` or `CFloat` records
which C++ expression produced the value, so that equal terms denote equal
machine values whatever the rounding of the platform is.  Calls into the
camera SDK and the vision library are inputs of the model (`CameraEnv`).
-/

namespace BaslerCalibration

/-! ## Values -/

/-- A C++ `double`, recorded by the expression that produced it. -/
inductive CDouble where
  /-- an `int` converted to `double` -/
  | ofInt (n : Int)
  /-- the value `strtod` assigns to a text that begins with a number -/
  | strtod (text : List Char)
  /-- the product `a * b` computed in `double` -/
  | mul (a b : CDouble)
  deriving DecidableEq, Repr

/-- A C++ `float`, recorded by the expression that produced it. -/
inductive CFloat where
  /-- an `int` converted to `float` -/
  | ofInt (n : Int)
  /-- a `double` narrowed to `float` -/
  | ofDouble (d : CDouble)
  /-- a value known only by its 32-bit pattern (library output) -/
  | bits (b : Nat)
  deriving DecidableEq, Repr

/-- Model of `cv::Size` (two `int` fields). -/
structure Size where
  width : Int
  height : Int
  deriving DecidableEq, Repr

/-- Model of `cv::Point3f`. -/
structure Point3f where
  x : CFloat
  y : CFloat
  z : CFloat
  deriving DecidableEq, Repr

/-- Model of `cv::Point2f`. -/
structure Point2f where
  x : CFloat
  y : CFloat
  deriving DecidableEq, Repr

/-! ## `calcBoardCornerPos` (main.cpp 174-182) -/

/-- The loop `for (int i = start; i < hi; i++) st = body i st`, run for at
most `fuel` iterations from counter value `i`. -/
def forLoop {σ : Type} (hi : Int) (body : Int → σ → σ) : Nat → Int → σ → σ
  | 0, _, st => st
  | fuel + 1, i, st => if i < hi then forLoop hi body fuel (i + 1) (body i st) else st

/-- Model of `std::vector::clear`: whatever the vector held, it is empty afterwards. -/
def vectorClear {α : Type} (_v : List α) : List α := []

/-- The point pushed at row `i`, column `j`:
`cv::Point3f(j*squareSize, i*squareSize, 0)`. -/
def cornerAt (squareSize : CDouble) (i j : Int) : Point3f :=
  { x := CFloat.ofDouble (CDouble.mul (CDouble.ofInt j) squareSize)
    y := CFloat.ofDouble (CDouble.mul (CDouble.ofInt i) squareSize)
    z := CFloat.ofInt 0 }

/-- The function `calcBoardCornerPos`: `corners` is the in/out vector; it is
cleared and then filled row by row.  Each loop starts at 0 and gets as many
iterations as its bound allows (`forLoop_fuel_irrelevant`). -/
def calcBoardCornerPos (boardSize : Size) (squareSize : CDouble)
    (corners : List Point3f) : List Point3f :=
  let cleared : List Point3f := vectorClear corners
  forLoop boardSize.height
    (fun i cs =>
      forLoop boardSize.width
        (fun j cs2 => cs2 ++ [cornerAt squareSize i j])
        boardSize.width.toNat 0 cs)
    boardSize.height.toNat 0 cleared

/-- One row of the grid: the points of row `i`, columns `0 .. w-1`. -/
def gridRow (squareSize : CDouble) (w : Nat) (i : Int) : List Point3f :=
  (List.range w).map (fun (j : Nat) => cornerAt squareSize i (j : Int))


/-! ## C library: character classes, `atoi`, `atof` -/

/-- The function `isspace` in the "C" locale: space, `\t`, `\n`, `\v`, `\f`, `\r`. -/
def isspace (c : Char) : Bool :=
  c.toNat = 32 || (9 ≤ c.toNat && c.toNat ≤ 13)

/-- The function `isdigit`: `0` .. `9`. -/
def isdigit (c : Char) : Bool :=
  48 ≤ c.toNat && c.toNat ≤ 57

/-- The function `isprint` in the "C" locale, on the `int` it is given:
true for the codes 0x20 .. 0x7e only. -/
def isprint (c : Int) : Bool :=
  32 ≤ c && c ≤ 126

/-- The bytes of a character as the program receives it in `argv` (UTF-8):
one byte for an ASCII character, two to four bytes otherwise. -/
def utf8Bytes (c : Char) : List Nat :=
  if c.toNat < 128 then [c.toNat]
  else if c.toNat < 2048 then [192 + c.toNat / 64, 128 + c.toNat % 64]
  else if c.toNat < 65536 then
    [224 + c.toNat / 4096, 128 + c.toNat / 64 % 64, 128 + c.toNat % 64]
  else
    [240 + c.toNat / 262144, 128 + c.toNat / 4096 % 64, 128 + c.toNat / 64 % 64,
      128 + c.toNat % 64]

/-- A byte read through a `char` and widened to `int`; `char` is signed and
8 bits wide (as on x86-64), so bytes from 0x80 on become negative. -/
def signedChar (b : Nat) : Int :=
  if b < 128 then (b : Int) else (b : Int) - 256

/-- Value of the longest prefix of decimal digits, continuing from `acc`. -/
def digitsValue : List Char → Nat → Nat
  | [], acc => acc
  | c :: cs, acc => if isdigit c then digitsValue cs (10 * acc + (c.toNat - 48)) else acc

/-- Removes one leading `+` or `-` and tells whether it was a `-`. -/
def takeSign : List Char → Bool × List Char
  | '-' :: r => (true, r)
  | '+' :: r => (false, r)
  | t => (false, t)

/-- The function `strtol(s, NULL, 10)` with a 64-bit `long`: leading white
space, an optional sign, the longest run of digits; 0 when there is no
digit; clamped to the range of `long`. -/
def strtol (s : List Char) : Int :=
  let p := takeSign (s.dropWhile isspace)
  let v : Int := (digitsValue p.2 0 : Nat)
  let r : Int := if p.1 then -v else v
  if r < -(2 ^ 63) then -(2 ^ 63) else if 2 ^ 63 - 1 < r then 2 ^ 63 - 1 else r

/-- Conversion of a `long` to a 32-bit `int` (two's complement truncation). -/
def toInt32 (v : Int) : Int :=
  (v + 2 ^ 31) % 2 ^ 32 - 2 ^ 31

/-- The function `atoi`, as the C library defines it: `(int) strtol(s, NULL, 10)`. -/
def atoi (s : String) : Int :=
  toInt32 (strtol s.data)

/-- Whether a text begins, after white space and an optional sign, with a
digit: the texts from which `strtol` reads a number. -/
def beginsWithDigit (t : List Char) : Bool :=
  match (takeSign (t.dropWhile isspace)).2 with
  | c :: _ => isdigit c
  | [] => false

/-- A well-formed integer in the plain sense: an optional sign followed by
one or more digits and nothing else. -/
def wellFormedInt (t : List Char) : Bool :=
  !(takeSign t).2.isEmpty && (takeSign t).2.all isdigit

/-- Whether a text (white space and sign already removed) begins with one of
the forms `strtod` converts: a digit, a point followed by a digit, or
`inf` / `nan` in any letter case. -/
def startsNumber : List Char → Bool
  | [] => false
  | [c] => isdigit c
  | [c, d] => isdigit c || (c = '.' && isdigit d)
  | c :: d :: e :: _ =>
    isdigit c || (c = '.' && isdigit d)
      || (c.toLower = 'i' && d.toLower = 'n' && e.toLower = 'f')
      || (c.toLower = 'n' && d.toLower = 'a' && e.toLower = 'n')

/-- The function `atof`, that is `strtod(s, NULL)`: when the text does not
begin with a number the result is 0, otherwise it is the value `strtod`
reads from the text. -/
def atof (s : String) : CDouble :=
  if startsNumber (takeSign (s.data.dropWhile isspace)).2 then CDouble.strtod s.data
  else CDouble.ofInt 0

/-! ## C library: `getopt` -/

/-- What `main` can read after one call of `getopt` that did not return -1:
the return value `c` and the globals `optarg` (`none` for NULL) and `optopt`.
`optopt` is an `int`: after a `'?'` return it holds the offending option
character, a `char` widened to `int`; `main` reads it only then (otherwise
it keeps its initial value, the code 63 of `?`).  The line that `getopt` itself writes to the error stream
on a `'?'` return is not recorded. -/
structure GetoptResult where
  c : Char
  optarg : Option String
  optopt : Int
  deriving DecidableEq, Repr

/-- Looks an option character up in an option string: `none` when it is not
an option, otherwise whether it takes an argument (is followed by `:`; a
double colon, for an optional argument, does not occur in the option string
of `main`). -/
def lookupOpt : List Char → Char → Option Bool
  | [], _ => none
  | o :: rest, c =>
    if c = ':' || c = ';' then none
    else if o = c then some (rest.head? = some ':')
    else lookupOpt rest c

/-- The option characters of one argument `-abc...` (the text after the
dash), scanned left to right; `next` is the argument that follows, if any.
The result says which calls of `getopt` this argument answers and whether
`next` was taken as an option argument.  The option string is ASCII, and
`getopt` scans bytes: a character outside ASCII is no option, and each of
its bytes is answered by a `'?'` return with that byte in `optopt`. -/
def scanCluster (optstring : List Char) (next : Option String) :
    List Char → List GetoptResult × Bool
  | [] => ([], false)
  | c :: rest =>
    match lookupOpt optstring c with
    | none =>
      let r := scanCluster optstring next rest
      ((utf8Bytes c).map (fun b => { c := '?', optarg := none, optopt := signedChar b })
        ++ r.1, r.2)
    | some false =>
      let r := scanCluster optstring next rest
      ({ c := c, optarg := none, optopt := 63 } :: r.1, r.2)
    | some true =>
      match rest with
      | _ :: _ => ([{ c := c, optarg := some (String.mk rest), optopt := 63 }], false)
      | [] =>
        match next with
        | some a => ([{ c := c, optarg := some a, optopt := 63 }], true)
        | none => ([{ c := '?', optarg := none, optopt := signedChar c.toNat }], false)

/-- The successive results of `getopt` over the arguments after `argv[0]`.
`skip` says that the first argument was already taken as an option argument.
With `permute` (the GNU default) arguments that are not options are passed
over; without it (POSIX order) the first of them ends the scan.  The
argument `--` ends the scan in both modes. -/
def scanArgs (optstring : List Char) (permute : Bool) : Bool → List String → List GetoptResult
  | _, [] => []
  | true, _ :: rest => scanArgs optstring permute false rest
  | false, a :: rest =>
    if a = "--" then []
    else
      match a.data with
      | '-' :: c :: cs =>
        let r := scanCluster optstring rest.head? (c :: cs)
        r.1 ++ scanArgs optstring permute r.2 rest
      | _ => if permute then scanArgs optstring permute false rest else []

/-- Whether an argument is scanned for options: a dash followed by at least
one more character. -/
def isOptionArg (a : String) : Bool :=
  match a.data with
  | '-' :: _ :: _ => true
  | _ => false

/-- Whether the flag `-c` appears in the argument vector: some argument after
`argv[0]` is a dash, then `c`, then anything. -/
def flagGiven (c : Char) (argv : List String) : Prop :=
  ∃ a ∈ argv.drop 1, ∃ rest, a.data = '-' :: c :: rest

/-- The results of the calls `getopt(argc, argv, "s:x:y:f:h")` of `main`, in
order, up to the call that returns -1. -/
def getoptResults (permute : Bool) (argv : List String) : List GetoptResult :=
  scanArgs "s:x:y:f:h".data permute false (argv.drop 1)

/-! ## `main`: option parsing (main.cpp 28-66) -/

/-- The three settings of `main`: `squareSize`, `boardSize`, `numFrames`. -/
structure Config where
  squareSize : CDouble
  boardSize : Size
  numFrames : Int
  deriving DecidableEq, Repr

/-- The initial values of lines 28-30. -/
def defaultConfig : Config :=
  { squareSize := CDouble.ofInt 20, boardSize := { width := 11, height := 7 }, numFrames := 50 }

/-- How the process ends: `return n` from `main`, or abnormal termination
(`abort()`, an exception nobody catches, a null pointer read). -/
inductive Exit where
  | code (n : Int)
  | terminated
  deriving DecidableEq, Repr

/-- Effect of `std::left << std::setw(w) << s`: padded with blanks on the right. -/
def leftSetw (w : Nat) (s : String) : String :=
  s ++ String.mk (List.replicate (w - s.length) ' ')

/-- The text of lines 48-53. -/
def usageText (argv0 : String) : String :=
  "usage: " ++ argv0 ++ " [options]\n"
    ++ "Options:\n"
    ++ leftSetw 10 " -s" ++ " size of square in mm\n"
    ++ leftSetw 10 " -x" ++ " chessboard columns\n"
    ++ leftSetw 10 " -y" ++ " chessboard rows\n"
    ++ leftSetw 10 " -f" ++ " calibration frames\n"

/-- The text of lines 56-61: `%c` writes the character of a printable
`optopt`; `%x` writes the `int` as an unsigned 32-bit number in hexadecimal,
so a negative `optopt` shows as `ffffff..`. -/
def unknownOptionText (optopt : Int) : String :=
  if isprint optopt then
    "Unknown option \x60-" ++ String.mk [Char.ofNat optopt.toNat] ++ "\x27.\n"
  else
    "Unknown option character \x60\\x"
      ++ String.mk (Nat.toDigits 16 (optopt % 2 ^ 32).toNat) ++ "\x27.\n"

/-- Result of the parsing loop: go on with a configuration, or leave `main`
with the text written to the error stream. -/
inductive ParseResult where
  | proceed (cfg : Config)
  | stop (exit : Exit) (stderr : List String)
  deriving DecidableEq, Repr

/-- The loop of lines 33-66 over the successive results of `getopt`. -/
def parseOptions (argv0 : String) : Config → List GetoptResult → ParseResult
  | cfg, [] => ParseResult.proceed cfg
  | cfg, r :: rest =>
    if r.c = 's' then
      match r.optarg with
      | some a => parseOptions argv0 { cfg with squareSize := atof a } rest
      | none => ParseResult.stop Exit.terminated []
    else if r.c = 'x' then
      match r.optarg with
      | some a =>
        parseOptions argv0 { cfg with boardSize := { cfg.boardSize with width := atoi a } } rest
      | none => ParseResult.stop Exit.terminated []
    else if r.c = 'y' then
      match r.optarg with
      | some a =>
        parseOptions argv0 { cfg with boardSize := { cfg.boardSize with height := atoi a } } rest
      | none => ParseResult.stop Exit.terminated []
    else if r.c = 'f' then
      match r.optarg with
      | some a => parseOptions argv0 { cfg with numFrames := atoi a } rest
      | none => ParseResult.stop Exit.terminated []
    else if r.c = 'h' then ParseResult.stop (Exit.code 0) [usageText argv0]
    else if r.c = '?' then ParseResult.stop (Exit.code 1) [unknownOptionText r.optopt]
    else ParseResult.stop Exit.terminated []

/-- The options that carry a value: `s`, `x`, `y`, `f`. -/
def isValueOpt (c : Char) : Bool :=
  c = 's' || c = 'x' || c = 'y' || c = 'f'

/-- The assignment the `switch` makes for a value option `c` with argument `a`. -/
def applyOpt (cfg : Config) (c : Char) (a : String) : Config :=
  if c = 's' then { cfg with squareSize := atof a }
  else if c = 'x' then { cfg with boardSize := { cfg.boardSize with width := atoi a } }
  else if c = 'y' then { cfg with boardSize := { cfg.boardSize with height := atoi a } }
  else if c = 'f' then { cfg with numFrames := atoi a }
  else cfg

/-- The assignments of a run of value options, in order. -/
def applyAll (cfg : Config) (evs : List GetoptResult) : Config :=
  evs.foldl (fun c e => applyOpt c e.c (e.optarg.getD "")) cfg

/-- Option parsing of `main` on an argument vector. -/
def parseArgs (permute : Bool) (argv : List String) : ParseResult :=
  parseOptions (argv.headD "") defaultConfig (getoptResults permute argv)

/-! ## Camera, vision library and solver as inputs -/

/-- What `cv::findChessboardCorners` followed by `cv::cornerSubPix` does on
one image: no board, a board with its refined corners, or an exception out of
the vision library. -/
inductive Detection where
  | notFound
  | found (corners : List Point2f)
  | thrown
  deriving DecidableEq, Repr

/-- What one call of `camera.RetrieveResult(5000, ...)` delivers: an
exception after the timeout, a grab result that did not succeed, or an image
of the given height and width together with what detection finds on it. -/
inductive GrabResult where
  | timeout
  | failed
  | image (height width : Int) (detection : Detection)
  deriving DecidableEq, Repr

/-- The world outside the program: whether the named camera exists, whether
its configuration goes through, what the k-th test `camera.IsGrabbing()` and
the k-th call of `RetrieveResult` give (k counts loop iterations from 0), and
whether `cv::calibrateCamera` returns rather than throws. -/
structure CameraEnv where
  deviceFound : Bool
  configOk : Bool
  isGrabbing : Nat → Bool
  retrieve : Nat → GrabResult
  solverOk : Bool

/-- Observable actions of a run, in program order. -/
inductive Event where
  | stderr (text : String)
  | pylonInitialize
  | createDevice (friendlyName : String)
  | printDevice
  | printConfig (cfg : Config)
  | cameraOpen
  | configure
  | cameraClose
  | startGrabbing
  | namedWindow
  | retrieveResult
  | findChessboardCorners
  | printFound (total : Nat)
  | imshow
  | printDoneCollecting
  | calibrateCamera (objPoints : List (List Point3f)) (imagePoints : List (List Point2f))
      (imageWidth imageHeight : Option Int)
  | printRms
  | writeFile (path : String) (numberOfFrames : Nat)
  | printSaved
  deriving DecidableEq, Repr

/-- A finished run: how it ended and what it did. -/
structure RunResult where
  exit : Exit
  trace : List Event
  deriving DecidableEq, Repr

/-! ## `main`: the collection loop (main.cpp 94-123) -/

/-- The variables the loop works on.  `height` and `width` are declared
without a value (lines 96-97) and stay `none` until a grab succeeds. `iter`
counts the iterations done. -/
structure LoopState where
  foundPoints : List (List Point2f)
  height : Option Int
  width : Option Int
  iter : Nat
  trace : List Event
  deriving DecidableEq, Repr

/-- The comparison `foundPoints.size() < numFrames` of line 100: `size()` is a
64-bit `size_t`, so the `int` is converted to `size_t` (taken modulo 2^64)
before the two are compared. -/
def sizeLess (size : Nat) (numFrames : Int) : Bool :=
  (size : Int) % 2 ^ 64 < numFrames % 2 ^ 64

/-- The loop condition of line 100. -/
def loopCond (env : CameraEnv) (numFrames : Int) (st : LoopState) : Bool :=
  env.isGrabbing st.iter && sizeLess st.foundPoints.length numFrames

/-- Lines 101-122: the loop variables after the body has dealt with one
grab result; for a result on which an exception leaves the body (`throws`),
the variables at that moment. -/
def processFrame (st : LoopState) : GrabResult → LoopState
  | GrabResult.timeout =>
    { st with iter := st.iter + 1, trace := st.trace ++ [Event.retrieveResult] }
  | GrabResult.failed =>
    { st with iter := st.iter + 1, trace := st.trace ++ [Event.retrieveResult] }
  | GrabResult.image h w Detection.thrown =>
    { st with height := some h, width := some w, iter := st.iter + 1
              trace := st.trace ++ [Event.retrieveResult, Event.findChessboardCorners] }
  | GrabResult.image h w Detection.notFound =>
    { st with height := some h, width := some w, iter := st.iter + 1
              trace := st.trace
                ++ [Event.retrieveResult, Event.findChessboardCorners, Event.imshow] }
  | GrabResult.image h w (Detection.found corners) =>
    { foundPoints := st.foundPoints ++ [corners]
      height := some h, width := some w, iter := st.iter + 1
      trace := st.trace
        ++ [Event.retrieveResult, Event.findChessboardCorners,
            Event.printFound (st.foundPoints.length + 1), Event.imshow] }

/-- Whether a grab result makes an exception leave the loop body. -/
def throws : GrabResult → Bool
  | GrabResult.timeout => true
  | GrabResult.image _ _ Detection.thrown => true
  | _ => false

/-- Outcome of one test of the loop condition and, if it holds, one run of
the body. -/
inductive StepResult where
  | next (st : LoopState)
  | exited (st : LoopState)
  | thrown (st : LoopState)
  deriving DecidableEq, Repr

/-- One iteration of the loop of lines 100-123. -/
def loopStep (env : CameraEnv) (numFrames : Int) (st : LoopState) : StepResult :=
  if loopCond env numFrames st then
    if throws (env.retrieve st.iter) then
      StepResult.thrown (processFrame st (env.retrieve st.iter))
    else StepResult.next (processFrame st (env.retrieve st.iter))
  else StepResult.exited st

/-- How the loop ends. -/
inductive LoopEnd where
  | exited (st : LoopState)
  | thrown (st : LoopState)
  deriving DecidableEq, Repr

/-- The loop variables at the end of the loop. -/
def LoopEnd.state : LoopEnd → LoopState
  | LoopEnd.exited st => st
  | LoopEnd.thrown st => st

/-- The loop variables after a step. -/
def StepResult.state : StepResult → LoopState
  | StepResult.next st => st
  | StepResult.exited st => st
  | StepResult.thrown st => st

/-- The loop, allowed at most `fuel` iterations; `none` when the condition
still holds after that many. -/
def runLoop (env : CameraEnv) (numFrames : Int) : Nat → LoopState → Option LoopEnd
  | 0, st =>
    match loopStep env numFrames st with
    | StepResult.next _ => none
    | StepResult.exited s => some (LoopEnd.exited s)
    | StepResult.thrown s => some (LoopEnd.thrown s)
  | fuel + 1, st =>
    match loopStep env numFrames st with
    | StepResult.next s => runLoop env numFrames fuel s
    | StepResult.exited s => some (LoopEnd.exited s)
    | StepResult.thrown s => some (LoopEnd.thrown s)

/-- The loop variables after at most `n` iterations (fewer when the loop has
ended before). -/
def stateAfter (env : CameraEnv) (numFrames : Int) : Nat → LoopState → LoopState
  | 0, st => st
  | n + 1, st =>
    match loopStep env numFrames st with
    | StepResult.next s => stateAfter env numFrames n s
    | StepResult.exited s => s
    | StepResult.thrown s => s

/-! ## `calibratePoints` (main.cpp 134-172) -/

/-- Model of `std::vector::resize(n, val)`. -/
def vectorResize {α : Type} (v : List α) (n : Nat) (val : α) : List α :=
  if n ≤ v.length then v.take n else v ++ List.replicate (n - v.length) val

/-- Lines 146-148: the object points handed to the solver. -/
def objectPoints (boardSize : Size) (squareSize : CDouble)
    (foundPoints : List (List Point2f)) : List (List Point3f) :=
  let objPoints0 : List (List Point3f) := List.replicate 1 []
  let objPoints1 := objPoints0.set 0 (calcBoardCornerPos boardSize squareSize (objPoints0.getD 0 []))
  vectorResize objPoints1 foundPoints.length (objPoints1.getD 0 [])

/-- The function `calibratePoints`: the solver call and, if it returns, the
output file.  Gives the actions done and whether the function returned. -/
def calibratePoints (env : CameraEnv) (boardSize : Size) (squareSize : CDouble)
    (imageWidth imageHeight : Option Int) (foundPoints : List (List Point2f)) :
    List Event × Bool :=
  let call := Event.calibrateCamera (objectPoints boardSize squareSize foundPoints) foundPoints
    imageWidth imageHeight
  if env.solverOk then
    ([call, Event.printRms, Event.writeFile "./calibration.xml" foundPoints.length,
      Event.printSaved], true)
  else ([call], false)

/-! ## `main` as a whole -/

/-- The loop variables when the loop is entered (line 94-99), after the
actions `done` so far. -/
def initialState (done : List Event) : LoopState :=
  { foundPoints := [], height := none, width := none, iter := 0, trace := done }

/-- Lines 68-91 and 99: the actions between option parsing and the loop. -/
def sessionStart (cfg : Config) : List Event :=
  [Event.pylonInitialize, Event.createDevice "CameraLeft (40022599)", Event.printDevice,
   Event.printConfig cfg, Event.cameraOpen, Event.configure, Event.cameraClose,
   Event.startGrabbing, Event.namedWindow]

/-- Lines 68-131: everything after option parsing.  `none` when the loop
needs more than `fuel` iterations. -/
def session (env : CameraEnv) (fuel : Nat) (cfg : Config) : Option RunResult :=
  if !env.deviceFound then
    some { exit := Exit.terminated
           trace := [Event.pylonInitialize, Event.createDevice "CameraLeft (40022599)"] }
  else if !env.configOk then
    some { exit := Exit.terminated
           trace := [Event.pylonInitialize, Event.createDevice "CameraLeft (40022599)",
                     Event.printDevice, Event.printConfig cfg, Event.cameraOpen,
                     Event.configure] }
  else
    match runLoop env cfg.numFrames fuel (initialState (sessionStart cfg)) with
    | none => none
    | some (LoopEnd.thrown st) => some { exit := Exit.terminated, trace := st.trace }
    | some (LoopEnd.exited st) =>
      let r := calibratePoints env cfg.boardSize cfg.squareSize st.width st.height st.foundPoints
      some { exit := if r.2 then Exit.code 0 else Exit.terminated
             trace := st.trace ++ [Event.printDoneCollecting] ++ r.1 }

/-- Whether an action is the call of the solver `cv::calibrateCamera`. -/
def isSolverCall : Event → Bool
  | Event.calibrateCamera _ _ _ _ => true
  | _ => false

/-- How often the solver is called in a trace. -/
def solverCalls (trace : List Event) : Nat :=
  trace.countP isSolverCall

/-- A frame source that keeps grabbing and shows a board on every frame (a
480 x 640 image with one corner, different from frame to frame), with the
camera present and the solver returning. -/
def fullDetectionEnv : CameraEnv :=
  { deviceFound := true
    configOk := true
    isGrabbing := fun _ => true
    retrieve := fun k =>
      GrabResult.image 480 640 (Detection.found [{ x := CFloat.bits k, y := CFloat.bits 0 }])
    solverOk := true }

/-- The function `main`. -/
def main (env : CameraEnv) (permute : Bool) (fuel : Nat) (argv : List String) :
    Option RunResult :=
  match parseArgs permute argv with
  | ParseResult.stop e out => some { exit := e, trace := out.map Event.stderr }
  | ParseResult.proceed cfg => session env fuel cfg

/-! ## Loop lemmas -/

/-- A loop that has already reached its bound does nothing. -/
theorem forLoop_done {σ : Type} (hi : Int) (body : Int → σ → σ) (fuel : Nat) (i : Int)
    (st : σ) (h : hi ≤ i) : forLoop hi body fuel i st = st := by
  cases fuel with
  | zero => rfl
  | succ n => simp [forLoop, not_lt.mpr h]

/-- Once the fuel covers the distance to the bound, more fuel changes
nothing: the loop ends because its condition fails. -/
theorem forLoop_fuel_irrelevant {σ : Type} (hi : Int) (body : Int → σ → σ) :
    ∀ (fuel extra : Nat) (i : Int) (st : σ), (hi - i).toNat ≤ fuel →
      forLoop hi body (fuel + extra) i st = forLoop hi body fuel i st := by
  intro fuel
  induction fuel with
  | zero =>
    intro extra i st h
    have hle : hi ≤ i := by omega
    rw [forLoop_done hi body _ i st hle, forLoop_done hi body _ i st hle]
  | succ n ih =>
    intro extra i st h
    have e : n + 1 + extra = (n + extra) + 1 := by omega
    rw [e]
    simp only [forLoop]
    by_cases hlt : i < hi
    · simp only [hlt, if_true]
      exact ih extra (i + 1) (body i st) (by omega)
    · simp only [hlt, if_false]

/-- A loop whose body appends one element per counter value appends the
images of the counter values `i, i+1, ...` in order. -/
theorem forLoop_append {α : Type} (hi : Int) (f : Int → α) :
    ∀ (fuel : Nat) (i : Int) (st : List α), (hi - i).toNat = fuel →
      forLoop hi (fun j cs => cs ++ [f j]) fuel i st
        = st ++ (List.range fuel).map (fun (k : Nat) => f (i + (k : Int))) := by
  intro fuel
  induction fuel with
  | zero => intro i st _; simp [forLoop]
  | succ n ih =>
    intro i st h
    have hlt : i < hi := by omega
    simp only [forLoop, hlt, if_true]
    rw [ih (i + 1) (st ++ [f i]) (by omega), List.range_succ_eq_map]
    simp only [List.map_cons, List.map_map, List.append_assoc, List.singleton_append,
      Function.comp_def, Nat.cast_zero, add_zero]
    congr 2
    apply List.map_congr_left
    intro a _
    congr 1
    push_cast
    ring

/-- The inner loop appends one full row. -/
theorem innerLoop_eq (squareSize : CDouble) (width : Int) (i : Int) (cs : List Point3f) :
    forLoop width (fun j cs2 => cs2 ++ [cornerAt squareSize i j]) width.toNat 0 cs
      = cs ++ gridRow squareSize width.toNat i := by
  rw [forLoop_append width (fun j => cornerAt squareSize i j) width.toNat 0 cs (by simp)]
  simp [gridRow]

/-- The outer loop from row `i` on: appends the rows `i, i+1, ...`. -/
theorem outerLoop_eq (squareSize : CDouble) (width height : Int) :
    ∀ (fuel : Nat) (i : Int) (cs : List Point3f), (height - i).toNat = fuel →
      forLoop height
        (fun i cs =>
          forLoop width (fun j cs2 => cs2 ++ [cornerAt squareSize i j]) width.toNat 0 cs)
        fuel i cs
      = cs ++ ((List.range fuel).map
          (fun (k : Nat) => gridRow squareSize width.toNat (i + (k : Int)))).flatten := by
  intro fuel
  induction fuel with
  | zero => intro i cs _; simp [forLoop]
  | succ n ih =>
    intro i cs h
    have hlt : i < height := by omega
    simp only [forLoop, hlt, if_true]
    rw [ih (i + 1) _ (by omega), innerLoop_eq, List.range_succ_eq_map]
    simp only [List.map_cons, List.map_map, List.flatten_cons, List.append_assoc,
      Function.comp_def, Nat.cast_zero, add_zero]
    congr 3
    apply List.map_congr_left
    intro a _
    congr 1
    push_cast
    ring

/-- Closed form of `calcBoardCornerPos`: the rows `0 .. height-1` one after
the other, each with the columns `0 .. width-1`. -/
theorem calcBoardCornerPos_eq (boardSize : Size) (squareSize : CDouble)
    (corners : List Point3f) :
    calcBoardCornerPos boardSize squareSize corners
      = ((List.range boardSize.height.toNat).map
          (fun (k : Nat) => gridRow squareSize boardSize.width.toNat (k : Int))).flatten := by
  unfold calcBoardCornerPos
  simp only [vectorClear]
  rw [outerLoop_eq squareSize boardSize.width boardSize.height boardSize.height.toNat 0 []
    (by simp)]
  simp

/-- Indexing a concatenation of rows of equal length `w`. -/
theorem flatten_getElem?_uniform {α : Type} (w : Nat) :
    ∀ (rows : List (List α)), (∀ r ∈ rows, r.length = w) →
      ∀ (i j : Nat), j < w → rows.flatten[i * w + j]? = (rows[i]?).bind (fun r => r[j]?) := by
  intro rows
  induction rows with
  | nil => intro _ i j _; simp
  | cons r rs ih =>
    intro hrows i j hj
    have hr : r.length = w := hrows r (by simp)
    have hrs : ∀ r2 ∈ rs, r2.length = w := fun r2 h2 => hrows r2 (by simp [h2])
    cases i with
    | zero =>
      simp only [List.flatten_cons, Nat.zero_mul, Nat.zero_add, List.getElem?_cons_zero,
        Option.some_bind]
      exact List.getElem?_append_left (by omega)
    | succ k =>
      simp only [List.flatten_cons, List.getElem?_cons_succ]
      rw [List.getElem?_append_right (by rw [hr, Nat.succ_mul]; omega)]
      have e : (k + 1) * w + j - r.length = k * w + j := by rw [hr, Nat.succ_mul]; omega
      rw [e]
      exact ih hrs k j hj

/-- Length of a concatenation of rows of equal length `w`. -/
theorem flatten_length_uniform {α : Type} (w : Nat) :
    ∀ (rows : List (List α)), (∀ r ∈ rows, r.length = w) →
      rows.flatten.length = rows.length * w := by
  intro rows
  induction rows with
  | nil => intro _; simp
  | cons r rs ih =>
    intro hrows
    have hr : r.length = w := hrows r (by simp)
    have hrs : ∀ r2 ∈ rs, r2.length = w := fun r2 h2 => hrows r2 (by simp [h2])
    simp only [List.flatten_cons, List.length_append, List.length_cons, ih hrs, hr]
    rw [Nat.succ_mul]; omega

/-- Number of points produced, for any board size (negative bounds count as 0). -/
theorem calcBoardCornerPos_length (boardSize : Size) (squareSize : CDouble)
    (corners : List Point3f) :
    (calcBoardCornerPos boardSize squareSize corners).length
      = boardSize.height.toNat * boardSize.width.toNat := by
  rw [calcBoardCornerPos_eq, flatten_length_uniform boardSize.width.toNat]
  · simp
  · intro r hr
    simp only [List.mem_map, List.mem_range] at hr
    obtain ⟨k, _, rfl⟩ := hr
    simp [gridRow]

/-- Entry of the grid at row `i`, column `j`, for any board size. -/
theorem calcBoardCornerPos_getElem? (boardSize : Size) (squareSize : CDouble)
    (corners : List Point3f) (i j : Nat)
    (hi : i < boardSize.height.toNat) (hj : j < boardSize.width.toNat) :
    (calcBoardCornerPos boardSize squareSize corners)[i * boardSize.width.toNat + j]?
      = some (cornerAt squareSize (i : Int) (j : Int)) := by
  rw [calcBoardCornerPos_eq, flatten_getElem?_uniform boardSize.width.toNat _ _ i j hj]
  · simp [List.getElem?_map, List.getElem?_range hi, gridRow, List.getElem?_range hj]
  · intro r hr
    simp only [List.mem_map, List.mem_range] at hr
    obtain ⟨k, _, rfl⟩ := hr
    simp [gridRow]

/-- C1: for a board with width >= 1 and height >= 1 and any square size,
`calcBoardCornerPos` yields exactly width * height points, and for every row
`i < height` and column `j < width` the entry at position `i * width + j` is
the point `(j * squareSize, i * squareSize, 0)`: z is always 0 and x, y run
through the grid in row-major order. -/
theorem calcBoardCornerPos_grid (boardSize : Size) (squareSize : CDouble)
    (corners : List Point3f) (hw : 1 ≤ boardSize.width) (hh : 1 ≤ boardSize.height) :
    ((calcBoardCornerPos boardSize squareSize corners).length : Int)
        = boardSize.width * boardSize.height
    ∧ ∀ (i j : Nat), (i : Int) < boardSize.height → (j : Int) < boardSize.width →
        (calcBoardCornerPos boardSize squareSize corners)[i * boardSize.width.toNat + j]?
          = some { x := CFloat.ofDouble (CDouble.mul (CDouble.ofInt j) squareSize)
                   y := CFloat.ofDouble (CDouble.mul (CDouble.ofInt i) squareSize)
                   z := CFloat.ofInt 0 } := by
  constructor
  · rw [calcBoardCornerPos_length]
    push_cast
    rw [Int.toNat_of_nonneg (by omega), Int.toNat_of_nonneg (by omega)]
    ring
  · intro i j hi hj
    exact calcBoardCornerPos_getElem? boardSize squareSize corners i j (by omega) (by omega)

/-- C1 at the default 11 x 7 board with a square size of 20: 77 points, and
the entry of row 2, column 3 sits at index 25. -/
theorem calcBoardCornerPos_grid_witness :
    (1 : Int) ≤ (Size.mk 11 7).width ∧ (1 : Int) ≤ (Size.mk 11 7).height
    ∧ ((calcBoardCornerPos (Size.mk 11 7) (CDouble.ofInt 20) []).length : Int) = 77
    ∧ (calcBoardCornerPos (Size.mk 11 7) (CDouble.ofInt 20) [])[25]?
        = some { x := CFloat.ofDouble (CDouble.mul (CDouble.ofInt 3) (CDouble.ofInt 20))
                 y := CFloat.ofDouble (CDouble.mul (CDouble.ofInt 2) (CDouble.ofInt 20))
                 z := CFloat.ofInt 0 } :=
  ⟨by decide, by decide,
    (calcBoardCornerPos_grid (Size.mk 11 7) (CDouble.ofInt 20) [] (by decide) (by decide)).1,
    (calcBoardCornerPos_grid (Size.mk 11 7) (CDouble.ofInt 20) [] (by decide) (by decide)).2
      2 3 (by decide) (by decide)⟩

/-! ## The object points handed to the solver -/

/-- Closed form of lines 146-148: one copy of the grid per collected sample. -/
theorem objectPoints_eq (boardSize : Size) (squareSize : CDouble)
    (foundPoints : List (List Point2f)) :
    objectPoints boardSize squareSize foundPoints
      = List.replicate foundPoints.length (calcBoardCornerPos boardSize squareSize []) := by
  unfold objectPoints vectorResize
  cases h : foundPoints.length with
  | zero => simp
  | succ n =>
    cases n with
    | zero => simp
    | succ m => simp [List.replicate_succ]

/-- C5: for every board size, square size and list of collected samples (the
empty list included), the object-point list that `calibratePoints` passes to
the solver has as many entries as `foundPoints`, every entry is the one grid
`calcBoardCornerPos(boardSize, squareSize)` builds, and this list is what the
solver call receives together with `foundPoints`. -/
theorem calibratePoints_objectPoints (env : CameraEnv) (boardSize : Size)
    (squareSize : CDouble) (imageWidth imageHeight : Option Int)
    (foundPoints : List (List Point2f)) :
    (objectPoints boardSize squareSize foundPoints).length = foundPoints.length
    ∧ (∀ g ∈ objectPoints boardSize squareSize foundPoints,
        g = calcBoardCornerPos boardSize squareSize [])
    ∧ (calibratePoints env boardSize squareSize imageWidth imageHeight foundPoints).1.head?
        = some (Event.calibrateCamera (objectPoints boardSize squareSize foundPoints)
            foundPoints imageWidth imageHeight) := by
  refine ⟨?_, ?_, ?_⟩
  · rw [objectPoints_eq, List.length_replicate]
  · intro g hg
    rw [objectPoints_eq] at hg
    exact List.eq_of_mem_replicate hg
  · unfold calibratePoints
    cases env.solverOk <;> simp

/-- C10: for a board size with width <= 0 or height <= 0 and any square size,
`calcBoardCornerPos` yields the empty list whatever the output vector held
before, and so every object-point set `calibratePoints` builds is empty. -/
theorem calcBoardCornerPos_degenerate (boardSize : Size) (squareSize : CDouble)
    (corners : List Point3f) (foundPoints : List (List Point2f))
    (h : boardSize.width ≤ 0 ∨ boardSize.height ≤ 0) :
    calcBoardCornerPos boardSize squareSize corners = []
    ∧ ∀ g ∈ objectPoints boardSize squareSize foundPoints, g = [] := by
  have hlen : ∀ cs, calcBoardCornerPos boardSize squareSize cs = [] := by
    intro cs
    apply List.eq_nil_of_length_eq_zero
    rw [calcBoardCornerPos_length]
    rcases h with h | h
    · rw [Int.toNat_eq_zero.mpr h, Nat.mul_zero]
    · rw [Int.toNat_eq_zero.mpr h, Nat.zero_mul]
  refine ⟨hlen corners, ?_⟩
  intro g hg
  rw [objectPoints_eq] at hg
  rw [List.eq_of_mem_replicate hg]
  exact hlen []

/-- C10 on the board a malformed `-x` leaves behind (width 0, height 7), with
an output vector that held a point and with two collected samples. -/
theorem calcBoardCornerPos_degenerate_witness :
    ((Size.mk 0 7).width ≤ 0 ∨ (Size.mk 0 7).height ≤ 0)
    ∧ calcBoardCornerPos (Size.mk 0 7) (CDouble.ofInt 20)
        [cornerAt (CDouble.ofInt 20) 1 1] = []
    ∧ ∀ g ∈ objectPoints (Size.mk 0 7) (CDouble.ofInt 20) [[], []], g = [] :=
  ⟨Or.inl (by decide),
    calcBoardCornerPos_degenerate (Size.mk 0 7) (CDouble.ofInt 20)
      [cornerAt (CDouble.ofInt 20) 1 1] [[], []] (Or.inl (by decide))⟩

/-! ## One iteration of the collection loop -/

/-- One iteration from a state: the body runs exactly when the condition holds. -/
theorem stateAfter_one (env : CameraEnv) (numFrames : Int) (st : LoopState) :
    stateAfter env numFrames 1 st
      = if loopCond env numFrames st then processFrame st (env.retrieve st.iter) else st := by
  simp only [stateAfter, loopStep]
  by_cases hc : loopCond env numFrames st
  · by_cases ht : throws (env.retrieve st.iter) <;> simp [hc, ht]
  · simp [hc]

/-- C4: whatever the sample collection holds, a grab that did not succeed and
a frame on which no board is found leave `foundPoints` as it was (same
entries, same order); a frame with a detected board appends its corner set
as the one new last entry; and one iteration of the loop changes
`foundPoints` only through this treatment of the retrieved frame. -/
theorem processFrame_foundPoints (env : CameraEnv) (numFrames : Int) (st : LoopState) :
    (processFrame st GrabResult.failed).foundPoints = st.foundPoints
    ∧ (∀ (h w : Int),
        (processFrame st (GrabResult.image h w Detection.notFound)).foundPoints
          = st.foundPoints)
    ∧ (∀ (h w : Int) (corners : List Point2f),
        (processFrame st (GrabResult.image h w (Detection.found corners))).foundPoints
          = st.foundPoints ++ [corners])
    ∧ (stateAfter env numFrames 1 st).foundPoints
        = if loopCond env numFrames st then
            (processFrame st (env.retrieve st.iter)).foundPoints
          else st.foundPoints := by
  refine ⟨rfl, fun _ _ => rfl, fun _ _ _ => rfl, ?_⟩
  rw [stateAfter_one]
  by_cases hc : loopCond env numFrames st <;> simp [hc]

/-! ## The bound on the sample collection -/

/-- The body adds at most one sample. -/
theorem processFrame_length_le (st : LoopState) (r : GrabResult) :
    (processFrame st r).foundPoints.length ≤ st.foundPoints.length + 1 := by
  cases r with
  | timeout => simp [processFrame]
  | failed => simp [processFrame]
  | image h w d => cases d <;> simp [processFrame]

/-- For a target in the range of a non-negative `int`, the test of line 100
is the plain comparison. -/
theorem sizeLess_iff (size : Nat) (f : Int) (hf0 : 0 ≤ f) (hf : f < 2 ^ 64)
    (hle : (size : Int) ≤ f) : sizeLess size f = true ↔ (size : Int) < f := by
  unfold sizeLess
  rw [Int.emod_eq_of_lt (by omega) (by omega), Int.emod_eq_of_lt hf0 hf]
  simp

/-- One step keeps the collection within a non-negative target. -/
theorem loopStep_length_le (env : CameraEnv) (f : Int) (hf0 : 0 ≤ f) (hf : f < 2 ^ 64)
    (st : LoopState) (hle : (st.foundPoints.length : Int) ≤ f) :
    ((loopStep env f st).state.foundPoints.length : Int) ≤ f := by
  unfold loopStep
  by_cases hc : loopCond env f st
  · have hlt : (st.foundPoints.length : Int) < f := by
      unfold loopCond at hc
      simp only [Bool.and_eq_true] at hc
      exact (sizeLess_iff _ f hf0 hf hle).mp hc.2
    have hp := processFrame_length_le st (env.retrieve st.iter)
    by_cases ht : throws (env.retrieve st.iter)
    · simp only [hc, ht, if_true, StepResult.state]; omega
    · simp only [hc, ht, if_true, StepResult.state, Bool.false_eq_true, if_false]; omega
  · simpa [hc, StepResult.state] using hle

/-- The bound holds after any number of iterations. -/
theorem stateAfter_length_le (env : CameraEnv) (f : Int) (hf0 : 0 ≤ f) (hf : f < 2 ^ 64) :
    ∀ (n : Nat) (st : LoopState), (st.foundPoints.length : Int) ≤ f →
      ((stateAfter env f n st).foundPoints.length : Int) ≤ f := by
  intro n
  induction n with
  | zero => intro st h; simpa [stateAfter] using h
  | succ k ih =>
    intro st h
    have hs := loopStep_length_le env f hf0 hf st h
    simp only [stateAfter]
    cases hstep : loopStep env f st with
    | next s => rw [hstep] at hs; exact ih s hs
    | exited s => rw [hstep] at hs; exact hs
    | thrown s => rw [hstep] at hs; exact hs

/-- The bound holds when the loop ends. -/
theorem runLoop_length_le (env : CameraEnv) (f : Int) (hf0 : 0 ≤ f) (hf : f < 2 ^ 64) :
    ∀ (fuel : Nat) (st : LoopState) (e : LoopEnd), (st.foundPoints.length : Int) ≤ f →
      runLoop env f fuel st = some e → (e.state.foundPoints.length : Int) ≤ f := by
  intro fuel
  induction fuel with
  | zero =>
    intro st e h hrun
    have hs := loopStep_length_le env f hf0 hf st h
    simp only [runLoop] at hrun
    cases hstep : loopStep env f st with
    | next s => rw [hstep] at hrun; simp at hrun
    | exited s =>
      rw [hstep] at hrun hs
      simp only [Option.some.injEq] at hrun
      subst hrun; exact hs
    | thrown s =>
      rw [hstep] at hrun hs
      simp only [Option.some.injEq] at hrun
      subst hrun; exact hs
  | succ k ih =>
    intro st e h hrun
    have hs := loopStep_length_le env f hf0 hf st h
    simp only [runLoop] at hrun
    cases hstep : loopStep env f st with
    | next s => rw [hstep] at hrun hs; exact ih s e hs hrun
    | exited s =>
      rw [hstep] at hrun hs
      simp only [Option.some.injEq] at hrun
      subst hrun; exact hs
    | thrown s =>
      rw [hstep] at hrun hs
      simp only [Option.some.injEq] at hrun
      subst hrun; exact hs

/-! ## The parsing loop -/

/-- A value option with its argument: the field is assigned and the loop goes on. -/
theorem parseOptions_value (argv0 : String) (cfg : Config) (r : GetoptResult)
    (rest : List GetoptResult) (a : String) (hc : isValueOpt r.c = true)
    (ha : r.optarg = some a) :
    parseOptions argv0 cfg (r :: rest) = parseOptions argv0 (applyOpt cfg r.c a) rest := by
  simp only [isValueOpt, Bool.or_eq_true, decide_eq_true_eq] at hc
  rcases hc with ((hc | hc) | hc) | hc <;>
    simp [parseOptions, applyOpt, hc, ha]

/-- The option `h`: usage text and `return 0`. -/
theorem parseOptions_help (argv0 : String) (cfg : Config) (r : GetoptResult)
    (rest : List GetoptResult) (hc : r.c = 'h') :
    parseOptions argv0 cfg (r :: rest) = ParseResult.stop (Exit.code 0) [usageText argv0] := by
  simp [parseOptions, hc]

/-- The result `?`: diagnostic and `return 1`. -/
theorem parseOptions_unknown (argv0 : String) (cfg : Config) (r : GetoptResult)
    (rest : List GetoptResult) (hc : r.c = '?') :
    parseOptions argv0 cfg (r :: rest)
      = ParseResult.stop (Exit.code 1) [unknownOptionText r.optopt] := by
  simp [parseOptions, hc]

/-- Anything else, or a value option without argument, ends the process abnormally. -/
theorem parseOptions_other (argv0 : String) (cfg : Config) (r : GetoptResult)
    (rest : List GetoptResult)
    (h : (isValueOpt r.c = true ∧ r.optarg = none)
      ∨ (isValueOpt r.c = false ∧ r.c ≠ 'h' ∧ r.c ≠ '?')) :
    parseOptions argv0 cfg (r :: rest) = ParseResult.stop Exit.terminated [] := by
  rcases h with ⟨hc, ha⟩ | ⟨hc, hh, hq⟩
  · simp only [isValueOpt, Bool.or_eq_true, decide_eq_true_eq] at hc
    rcases hc with ((hc | hc) | hc) | hc <;>
      simp [parseOptions, hc, ha]
  · simp only [isValueOpt, Bool.or_eq_false_iff, decide_eq_false_iff_not] at hc
    obtain ⟨⟨⟨h1, h2⟩, h3⟩, h4⟩ := hc
    simp [parseOptions, h1, h2, h3, h4, hh, hq]

/-- Every result of `getopt` is of one of four kinds. -/
theorem getoptResult_cases (r : GetoptResult) :
    (isValueOpt r.c = true ∧ ∃ a, r.optarg = some a) ∨ r.c = 'h' ∨ r.c = '?'
    ∨ ((isValueOpt r.c = true ∧ r.optarg = none)
      ∨ (isValueOpt r.c = false ∧ r.c ≠ 'h' ∧ r.c ≠ '?')) := by
  by_cases hv : isValueOpt r.c = true
  · cases ha : r.optarg with
    | none => exact Or.inr (Or.inr (Or.inr (Or.inl ⟨hv, rfl⟩)))
    | some a => exact Or.inl ⟨hv, a, rfl⟩
  · by_cases hh : r.c = 'h'
    · exact Or.inr (Or.inl hh)
    · by_cases hq : r.c = '?'
      · exact Or.inr (Or.inr (Or.inl hq))
      · exact Or.inr (Or.inr (Or.inr (Or.inr ⟨by simpa using hv, hh, hq⟩)))

/-- A run of value options with arguments is worked off; the loop continues
behind it with the assignments made. -/
theorem parseOptions_append (argv0 : String) :
    ∀ (pre : List GetoptResult) (cfg : Config) (rest : List GetoptResult),
      (∀ e ∈ pre, isValueOpt e.c = true ∧ ∃ a, e.optarg = some a) →
      parseOptions argv0 cfg (pre ++ rest) = parseOptions argv0 (applyAll cfg pre) rest := by
  intro pre
  induction pre with
  | nil => intro cfg rest _; rfl
  | cons r rs ih =>
    intro cfg rest h
    obtain ⟨hv, a, ha⟩ := h r (by simp)
    rw [List.cons_append, parseOptions_value argv0 cfg r _ a hv ha,
      ih _ rest (fun e he => h e (by simp [he]))]
    simp [applyAll, ha]

/-- When parsing goes on to the camera session, every result of `getopt` was
a value option with its argument, and the configuration is the default one
with their assignments made in order. -/
theorem parseOptions_proceed (argv0 : String) :
    ∀ (evs : List GetoptResult) (cfg cfg2 : Config),
      parseOptions argv0 cfg evs = ParseResult.proceed cfg2 →
      (∀ e ∈ evs, isValueOpt e.c = true ∧ ∃ a, e.optarg = some a)
      ∧ cfg2 = applyAll cfg evs := by
  intro evs
  induction evs with
  | nil =>
    intro cfg cfg2 h
    simp only [parseOptions, ParseResult.proceed.injEq] at h
    simp [applyAll, h]
  | cons r rs ih =>
    intro cfg cfg2 h
    rcases getoptResult_cases r with ⟨hv, a, ha⟩ | hh | hq | ho
    · rw [parseOptions_value argv0 cfg r rs a hv ha] at h
      obtain ⟨h1, h2⟩ := ih _ _ h
      refine ⟨?_, ?_⟩
      · intro e he
        rcases List.mem_cons.mp he with rfl | he
        · exact ⟨hv, a, ha⟩
        · exact h1 e he
      · simp [applyAll, ha, h2]
    · rw [parseOptions_help argv0 cfg r rs hh] at h; simp at h
    · rw [parseOptions_unknown argv0 cfg r rs hq] at h; simp at h
    · rw [parseOptions_other argv0 cfg r rs ho] at h; simp at h

/-- The result of `atoi` is a 32-bit `int`. -/
theorem toInt32_range (v : Int) : -(2 ^ 31) ≤ toInt32 v ∧ toInt32 v < 2 ^ 31 := by
  unfold toInt32
  omega

/-- A field keeps its value under assignments that are not for it. -/
theorem applyAll_keeps (evs : List GetoptResult) :
    ∀ (cfg : Config),
      ((∀ e ∈ evs, e.c ≠ 's') → (applyAll cfg evs).squareSize = cfg.squareSize)
      ∧ ((∀ e ∈ evs, e.c ≠ 'x') → (applyAll cfg evs).boardSize.width = cfg.boardSize.width)
      ∧ ((∀ e ∈ evs, e.c ≠ 'y') → (applyAll cfg evs).boardSize.height = cfg.boardSize.height)
      ∧ ((∀ e ∈ evs, e.c ≠ 'f') → (applyAll cfg evs).numFrames = cfg.numFrames) := by
  induction evs with
  | nil => intro cfg; simp [applyAll]
  | cons r rs ih =>
    intro cfg
    have hstep : applyAll cfg (r :: rs) = applyAll (applyOpt cfg r.c (r.optarg.getD "")) rs := rfl
    obtain ⟨i1, i2, i3, i4⟩ := ih (applyOpt cfg r.c (r.optarg.getD ""))
    rw [hstep]
    refine ⟨?_, ?_, ?_, ?_⟩
    · intro h
      rw [i1 (fun e he => h e (by simp [he]))]
      have := h r (by simp)
      unfold applyOpt; split_ifs <;> simp_all
    · intro h
      rw [i2 (fun e he => h e (by simp [he]))]
      have := h r (by simp)
      unfold applyOpt; split_ifs <;> simp_all
    · intro h
      rw [i3 (fun e he => h e (by simp [he]))]
      have := h r (by simp)
      unfold applyOpt; split_ifs <;> simp_all
    · intro h
      rw [i4 (fun e he => h e (by simp [he]))]
      have := h r (by simp)
      unfold applyOpt; split_ifs <;> simp_all

/-- The frame count stays a 32-bit `int` under the assignments. -/
theorem applyAll_numFrames_range (evs : List GetoptResult) :
    ∀ (cfg : Config), (-(2 ^ 31) ≤ cfg.numFrames ∧ cfg.numFrames < 2 ^ 31) →
      -(2 ^ 31) ≤ (applyAll cfg evs).numFrames ∧ (applyAll cfg evs).numFrames < 2 ^ 31 := by
  induction evs with
  | nil => intro cfg h; simpa [applyAll] using h
  | cons r rs ih =>
    intro cfg h
    have hstep : applyAll cfg (r :: rs) = applyAll (applyOpt cfg r.c (r.optarg.getD "")) rs := rfl
    rw [hstep]
    apply ih
    unfold applyOpt
    split_ifs
    · exact h
    · exact h
    · exact h
    · exact toInt32_range _
    · exact h

/-- The frame count that option parsing hands on is a 32-bit `int`. -/
theorem parseArgs_numFrames_range (permute : Bool) (argv : List String) (cfg : Config)
    (h : parseArgs permute argv = ParseResult.proceed cfg) :
    -(2 ^ 31) ≤ cfg.numFrames ∧ cfg.numFrames < 2 ^ 31 := by
  unfold parseArgs at h
  rw [(parseOptions_proceed _ _ _ _ h).2]
  apply applyAll_numFrames_range
  simp [defaultConfig]

/-! ## Termination on a source that always shows a board -/

/-- When the condition fails the loop ends at once, whatever the fuel. -/
theorem runLoop_of_exited (env : CameraEnv) (f : Int) (fuel : Nat) (st s : LoopState)
    (h : loopStep env f st = StepResult.exited s) :
    runLoop env f fuel st = some (LoopEnd.exited s) := by
  cases fuel <;> simp [runLoop, h]

/-- The step on a frame with a board while the target is not reached. -/
theorem loopStep_found (env : CameraEnv) (f : Int) (hf0 : 0 ≤ f) (hf : f < 2 ^ 64)
    (st : LoopState) (h w : Int) (corners : List Point2f)
    (hgrab : env.isGrabbing st.iter = true)
    (hret : env.retrieve st.iter = GrabResult.image h w (Detection.found corners))
    (hlt : (st.foundPoints.length : Int) < f) :
    loopStep env f st
      = StepResult.next (processFrame st (GrabResult.image h w (Detection.found corners))) := by
  have hc : loopCond env f st = true := by
    unfold loopCond
    rw [hgrab, (sizeLess_iff _ f hf0 hf (le_of_lt hlt)).mpr hlt]
    rfl
  simp [loopStep, hc, hret, throws]

/-- The step once the target is reached. -/
theorem loopStep_full (env : CameraEnv) (f : Int) (hf0 : 0 ≤ f) (hf : f < 2 ^ 64)
    (st : LoopState) (heq : (st.foundPoints.length : Int) = f) :
    loopStep env f st = StepResult.exited st := by
  have hs : sizeLess st.foundPoints.length f = false := by
    by_contra hne
    have ht : sizeLess st.foundPoints.length f = true := by simpa using hne
    have := (sizeLess_iff _ f hf0 hf (le_of_eq heq)).mp ht
    omega
  simp [loopStep, loopCond, hs]

/-- On a source that keeps grabbing and always shows a board, the loop needs
exactly as many iterations as samples are missing. -/
theorem runLoop_full (env : CameraEnv) (f : Int) (hf0 : 0 ≤ f) (hf : f < 2 ^ 64)
    (h w : Nat → Int) (pts : Nat → List Point2f)
    (hgrab : ∀ k, env.isGrabbing k = true)
    (hret : ∀ k, env.retrieve k = GrabResult.image (h k) (w k) (Detection.found (pts k))) :
    ∀ (m : Nat) (st : LoopState), st.foundPoints.length + m = f.toNat →
      (∀ fuel, m ≤ fuel →
        ∃ s, runLoop env f fuel st = some (LoopEnd.exited s)
          ∧ s.iter = st.iter + m
          ∧ s.foundPoints
              = st.foundPoints ++ (List.range m).map (fun (j : Nat) => pts (st.iter + j))
          ∧ solverCalls s.trace = solverCalls st.trace)
      ∧ (∀ fuel, fuel < m → runLoop env f fuel st = none) := by
  intro m
  induction m with
  | zero =>
    intro st hlen
    refine ⟨?_, fun fuel hlt => absurd hlt (Nat.not_lt_zero _)⟩
    intro fuel _
    have heq : (st.foundPoints.length : Int) = f := by omega
    exact ⟨st, runLoop_of_exited env f fuel st st (loopStep_full env f hf0 hf st heq),
      by simp, by simp, rfl⟩
  | succ k ih =>
    intro st hlen
    have hlt : (st.foundPoints.length : Int) < f := by omega
    have hstep := loopStep_found env f hf0 hf st (h st.iter) (w st.iter) (pts st.iter)
      (hgrab st.iter) (hret st.iter) hlt
    have hnext := ih (processFrame st
      (GrabResult.image (h st.iter) (w st.iter) (Detection.found (pts st.iter))))
      (by simp only [processFrame, List.length_append, List.length_singleton]; omega)
    constructor
    · intro fuel hfuel
      obtain ⟨fuel2, rfl⟩ : ∃ n, fuel = n + 1 := ⟨fuel - 1, by omega⟩
      obtain ⟨s, hrun, hiter, hpts, hcalls⟩ := hnext.1 fuel2 (by omega)
      refine ⟨s, ?_, ?_, ?_, ?_⟩
      · simp only [runLoop, hstep]; exact hrun
      · rw [hiter]; simp only [processFrame]; omega
      · rw [hpts, List.range_succ_eq_map]
        simp only [processFrame, List.map_cons, List.map_map, List.append_assoc,
          List.singleton_append, Function.comp_def, Nat.add_zero]
        congr 2
        apply List.map_congr_left
        intro a _
        congr 1
        omega
      · rw [hcalls]
        simp [processFrame, solverCalls, isSolverCall, List.countP_append, List.countP_cons]
    · intro fuel hfuel
      cases fuel with
      | zero => simp [runLoop, hstep]
      | succ n =>
        simp only [runLoop, hstep]
        exact hnext.2 n (by omega)

/-! ## The claims on the collection loop -/

/-- C2 as stated fails: `-f -1` makes option parsing hand on the target -1;
the collection is then longer than the target as soon as the loop is entered
(0 samples), and on a source that always shows a board it holds 2 samples
after two iterations, the converted target 2^64 - 1 being far away. -/
theorem collection_bound_counterexample :
    parseArgs true ["calib", "-f", "-1"]
        = ParseResult.proceed { defaultConfig with numFrames := -1 }
    ∧ ¬ (((stateAfter fullDetectionEnv (-1) 0
            (initialState (sessionStart { defaultConfig with numFrames := -1 }))).foundPoints.length
          : Int) ≤ -1)
    ∧ (stateAfter fullDetectionEnv (-1) 2
        (initialState (sessionStart { defaultConfig with numFrames := -1 }))).foundPoints.length
        = 2 := by
  refine ⟨by decide, by decide, by decide⟩

/-- C2, amended: for every target frame count f >= 0 that option parsing
hands on, and whatever the camera delivers (failed grabs, frames without or
with a board, exceptions), `foundPoints` holds at most f samples after any
number of iterations of the collection loop and when the loop ends. -/
theorem collection_bounded (permute : Bool) (argv : List String) (cfg : Config)
    (env : CameraEnv) (hparse : parseArgs permute argv = ParseResult.proceed cfg)
    (hf0 : 0 ≤ cfg.numFrames) :
    (∀ n : Nat,
      ((stateAfter env cfg.numFrames n (initialState (sessionStart cfg))).foundPoints.length
        : Int) ≤ cfg.numFrames)
    ∧ (∀ (fuel : Nat) (e : LoopEnd),
        runLoop env cfg.numFrames fuel (initialState (sessionStart cfg)) = some e →
        (e.state.foundPoints.length : Int) ≤ cfg.numFrames) := by
  have hr := (parseArgs_numFrames_range permute argv cfg hparse).2
  have hf : cfg.numFrames < 2 ^ 64 := by omega
  have h0 : ((initialState (sessionStart cfg)).foundPoints.length : Int) ≤ cfg.numFrames := by
    simpa [initialState] using hf0
  exact ⟨fun n => stateAfter_length_le env cfg.numFrames hf0 hf n _ h0,
    fun fuel e hrun => runLoop_length_le env cfg.numFrames hf0 hf fuel _ e h0 hrun⟩

/-- The amended C2 on `-f 2` with a source that always shows a board: after 5
iterations the collection holds no more than 2 samples. -/
theorem collection_bounded_witness :
    parseArgs true ["calib", "-f", "2"]
        = ParseResult.proceed { defaultConfig with numFrames := 2 }
    ∧ ((stateAfter fullDetectionEnv 2 5
          (initialState (sessionStart { defaultConfig with numFrames := 2 }))).foundPoints.length
        : Int) ≤ 2 :=
  ⟨by decide,
    (collection_bounded true ["calib", "-f", "2"] { defaultConfig with numFrames := 2 }
      fullDetectionEnv (by decide) (by decide)).1 5⟩

/-- C3: on a frame source that keeps grabbing and shows a board on every
frame, the collection loop with target frame count f (a count that fits the
`int` `numFrames`) ends by its condition after exactly f iterations (f
iterations suffice, fewer do not), with exactly f samples in `foundPoints`,
in the order the frames were retrieved; the run then calls the solver
exactly once. -/
theorem collection_terminates (env : CameraEnv) (squareSize : CDouble) (boardSize : Size)
    (f : Nat) (h w : Nat → Int) (pts : Nat → List Point2f)
    (hf : (f : Int) < 2 ^ 31)
    (hdev : env.deviceFound = true) (hcfg : env.configOk = true)
    (hgrab : ∀ k, env.isGrabbing k = true)
    (hret : ∀ k, env.retrieve k = GrabResult.image (h k) (w k) (Detection.found (pts k)))
    (fuel : Nat) (hfuel : f ≤ fuel) :
    (∃ st, runLoop env (f : Int) fuel
            (initialState (sessionStart
              { squareSize := squareSize, boardSize := boardSize, numFrames := (f : Int) }))
          = some (LoopEnd.exited st)
        ∧ st.iter = f
        ∧ st.foundPoints.length = f
        ∧ st.foundPoints = (List.range f).map pts)
    ∧ (∀ less : Nat, less < f →
        runLoop env (f : Int) less
            (initialState (sessionStart
              { squareSize := squareSize, boardSize := boardSize, numFrames := (f : Int) }))
          = none)
    ∧ (∃ r, session env fuel
              { squareSize := squareSize, boardSize := boardSize, numFrames := (f : Int) }
            = some r
        ∧ solverCalls r.trace = 1) := by
  have hfull := runLoop_full env (f : Int) (by omega) (by omega) h w pts hgrab hret f
    (initialState (sessionStart
      { squareSize := squareSize, boardSize := boardSize, numFrames := (f : Int) }))
    (by simp [initialState])
  obtain ⟨st, hrun, hiter, hpts, hcalls⟩ := hfull.1 fuel hfuel
  have hpts2 : st.foundPoints = (List.range f).map pts := by
    rw [hpts]; simp [initialState]
  refine ⟨⟨st, hrun, ?_, ?_, hpts2⟩, hfull.2, ?_⟩
  · rw [hiter]; simp [initialState]
  · rw [hpts2]; simp
  · have hstart : solverCalls st.trace = 0 := by
      rw [hcalls]; simp [initialState, sessionStart, solverCalls, isSolverCall]
    unfold solverCalls at hstart
    unfold session
    simp only [hdev, hcfg, hrun, Bool.not_true, Bool.false_eq_true, if_false]
    refine ⟨_, rfl, ?_⟩
    unfold calibratePoints
    cases env.solverOk <;>
      simp [solverCalls, isSolverCall, List.countP_append, List.countP_cons, hstart]

/-- C3 on the scenario `-x 5 -y 4 -s 25 -f 3` with a source that shows a board
on every frame: 3 iterations, 3 samples, one call of the solver. -/
theorem collection_terminates_witness :
    parseArgs true ["calib", "-x", "5", "-y", "4", "-s", "25", "-f", "3"]
        = ParseResult.proceed
            { squareSize := CDouble.strtod ['2', '5'], boardSize := { width := 5, height := 4 }
              numFrames := ((3 : Nat) : Int) }
    ∧ ((3 : Nat) : Int) < 2 ^ 31
    ∧ (∃ st, runLoop fullDetectionEnv ((3 : Nat) : Int) 3
          (initialState (sessionStart
            { squareSize := CDouble.strtod ['2', '5'], boardSize := { width := 5, height := 4 }
              numFrames := ((3 : Nat) : Int) }))
          = some (LoopEnd.exited st)
        ∧ st.iter = 3
        ∧ st.foundPoints.length = 3
        ∧ st.foundPoints = (List.range 3).map
            (fun k => [{ x := CFloat.bits k, y := CFloat.bits 0 }]))
    ∧ (∃ r, session fullDetectionEnv 3
          { squareSize := CDouble.strtod ['2', '5'], boardSize := { width := 5, height := 4 }
            numFrames := ((3 : Nat) : Int) } = some r
        ∧ solverCalls r.trace = 1) :=
  ⟨by decide, by decide,
    (collection_terminates fullDetectionEnv (CDouble.strtod ['2', '5'])
      { width := 5, height := 4 } 3
      (fun _ => 480) (fun _ => 640) (fun k => [{ x := CFloat.bits k, y := CFloat.bits 0 }])
      (by decide) rfl rfl (fun _ => rfl) (fun _ => rfl) 3 (by decide)).1,
    (collection_terminates fullDetectionEnv (CDouble.strtod ['2', '5'])
      { width := 5, height := 4 } 3
      (fun _ => 480) (fun _ => 640) (fun k => [{ x := CFloat.bits k, y := CFloat.bits 0 }])
      (by decide) rfl rfl (fun _ => rfl) (fun _ => rfl) 3 (by decide)).2.2⟩

/-! ## What `getopt` reports for the option string of `main` -/

/-- In `"s:x:y:f:h"` the options with an argument are `s`, `x`, `y`, `f`, the
only option without one is `h`. -/
theorem lookupOpt_main (c : Char) :
    (lookupOpt "s:x:y:f:h".data c = some true → isValueOpt c = true)
    ∧ (lookupOpt "s:x:y:f:h".data c = some false → c = 'h')
    ∧ (isValueOpt c = true → lookupOpt "s:x:y:f:h".data c = some true) := by
  have hd : "s:x:y:f:h".data = ['s', ':', 'x', ':', 'y', ':', 'f', ':', 'h'] := rfl
  rw [hd]
  simp only [lookupOpt, isValueOpt]
  by_cases h1 : c = ':'
  · subst h1; simp
  by_cases h2 : c = ';'
  · subst h2; simp
  by_cases hs : c = 's'
  · subst hs; simp
  by_cases hx : c = 'x'
  · subst hx; simp
  by_cases hy : c = 'y'
  · subst hy; simp
  by_cases hf : c = 'f'
  · subst hf; simp
  by_cases hh : c = 'h'
  · subst hh; simp
  simp [h1, h2, hs, hx, hy, hf, hh, Ne.symm h1, Ne.symm hs, Ne.symm hx, Ne.symm hy,
    Ne.symm hf, Ne.symm hh]

/-- Every character has at least one byte. -/
theorem utf8Bytes_ne_nil (c : Char) : utf8Bytes c ≠ [] := by
  unfold utf8Bytes
  split_ifs <;> simp

/-- Every result reported for one argument is a value option with its
argument, or `h`, or `?`. -/
theorem scanCluster_kinds (next : Option String) :
    ∀ (chars : List Char), ∀ e ∈ (scanCluster "s:x:y:f:h".data next chars).1,
      (isValueOpt e.c = true ∧ ∃ a, e.optarg = some a) ∨ e.c = 'h' ∨ e.c = '?' := by
  intro chars
  induction chars with
  | nil => intro e he; simp [scanCluster] at he
  | cons c rest ih =>
    intro e he
    obtain ⟨h1, h2, _⟩ := lookupOpt_main c
    simp only [scanCluster] at he
    cases hl : lookupOpt "s:x:y:f:h".data c with
    | none =>
      rw [hl] at he
      rcases List.mem_append.mp he with he | he
      · obtain ⟨b, _, rfl⟩ := List.mem_map.mp he
        exact Or.inr (Or.inr rfl)
      · exact ih e he
    | some b =>
      cases b with
      | false =>
        rw [hl] at he
        rcases List.mem_cons.mp he with rfl | he
        · exact Or.inr (Or.inl (h2 hl))
        · exact ih e he
      | true =>
        rw [hl] at he
        cases rest with
        | cons d ds =>
          simp only [List.mem_singleton] at he
          subst he
          exact Or.inl ⟨h1 hl, _, rfl⟩
        | nil =>
          cases next with
          | some a =>
            simp only [List.mem_singleton] at he
            subst he
            exact Or.inl ⟨h1 hl, _, rfl⟩
          | none =>
            simp only [List.mem_singleton] at he
            subst he
            exact Or.inr (Or.inr rfl)

/-- When an argument `-c...` yields value options only, it yields options `c` only. -/
theorem scanCluster_head (next : Option String) (c : Char) (cs : List Char)
    (hall : ∀ e ∈ (scanCluster "s:x:y:f:h".data next (c :: cs)).1, isValueOpt e.c = true) :
    ∀ e ∈ (scanCluster "s:x:y:f:h".data next (c :: cs)).1, e.c = c := by
  obtain ⟨_, h2, _⟩ := lookupOpt_main c
  intro e he
  simp only [scanCluster] at he hall
  cases hl : lookupOpt "s:x:y:f:h".data c with
  | none =>
    rw [hl] at hall
    obtain ⟨b, hb⟩ := List.exists_mem_of_ne_nil _ (utf8Bytes_ne_nil c)
    have := hall _ (List.mem_append_left _ (List.mem_map.mpr ⟨b, hb, rfl⟩))
    simp [isValueOpt] at this
  | some b =>
    cases b with
    | false =>
      rw [hl] at hall
      have := hall _ (List.mem_cons_self _ _)
      rw [h2 hl] at this
      simp [isValueOpt] at this
    | true =>
      rw [hl] at he hall
      cases cs with
      | cons d ds =>
        simp only [List.mem_singleton] at he
        subst he; rfl
      | nil =>
        cases next with
        | some a =>
          simp only [List.mem_singleton] at he
          subst he; rfl
        | none =>
          have := hall _ (List.mem_singleton_self _)
          simp [isValueOpt] at this

/-- Every result of `getopt` in `main` is a value option with its argument,
or `h`, or `?`: the `default` branch and a null `optarg` are out of reach. -/
theorem scanArgs_kinds (permute : Bool) :
    ∀ (args : List String) (skip : Bool), ∀ e ∈ scanArgs "s:x:y:f:h".data permute skip args,
      (isValueOpt e.c = true ∧ ∃ a, e.optarg = some a) ∨ e.c = 'h' ∨ e.c = '?' := by
  intro args
  induction args with
  | nil => intro skip e he; cases skip <;> simp [scanArgs] at he
  | cons a rest ih =>
    intro skip e he
    cases skip with
    | true => simp only [scanArgs] at he; exact ih false e he
    | false =>
      simp only [scanArgs] at he
      by_cases hdd : a = "--"
      · simp [hdd] at he
      · simp only [hdd, if_false] at he
        split at he
        · rcases List.mem_append.mp he with he | he
          · exact scanCluster_kinds _ _ e he
          · exact ih _ e he
        · cases permute with
          | true => simp only [if_true] at he; exact ih false e he
          | false => simp at he

/-- When `getopt` reports value options only, each reported option `c` comes
from an argument that begins with `-c`. -/
theorem scanArgs_origin (permute : Bool) :
    ∀ (args : List String) (skip : Bool),
      (∀ e ∈ scanArgs "s:x:y:f:h".data permute skip args, isValueOpt e.c = true) →
      ∀ e ∈ scanArgs "s:x:y:f:h".data permute skip args,
        ∃ a ∈ args, ∃ rest, a.data = '-' :: e.c :: rest := by
  intro args
  induction args with
  | nil => intro skip _ e he; cases skip <;> simp [scanArgs] at he
  | cons a rest ih =>
    intro skip hall e he
    cases skip with
    | true =>
      simp only [scanArgs] at he hall
      obtain ⟨b, hb, r, hr⟩ := ih false hall e he
      exact ⟨b, List.mem_cons_of_mem _ hb, r, hr⟩
    | false =>
      simp only [scanArgs] at he hall
      by_cases hdd : a = "--"
      · simp [hdd] at he
      · simp only [hdd, if_false] at he hall
        split at he
        · rename_i c cs hdata
          simp only [hdata] at hall
          rcases List.mem_append.mp he with he | he
          · have hc := scanCluster_head _ c cs
              (fun e2 h2 => hall e2 (List.mem_append_left _ h2)) e he
            exact ⟨a, List.mem_cons_self _ _, cs, by rw [hdata, hc]⟩
          · obtain ⟨b, hb, r, hr⟩ := ih _
              (fun e2 h2 => hall e2 (List.mem_append_right _ h2)) e he
            exact ⟨b, List.mem_cons_of_mem _ hb, r, hr⟩
        · rename_i hno
          cases permute with
          | true =>
            simp only [if_true] at he
            have hall2 : ∀ e ∈ scanArgs "s:x:y:f:h".data true false rest,
                isValueOpt e.c = true := by
              intro e2 h2
              apply hall
              split
              · rename_i c cs hdata
                exact absurd hdata (hno c cs)
              · simpa using h2
            obtain ⟨b, hb, r, hr⟩ := ih false hall2 e he
            exact ⟨b, List.mem_cons_of_mem _ hb, r, hr⟩
          | false => simp at he

/-- Without an argument that is scanned for options, `getopt` reports nothing. -/
theorem scanArgs_no_options (optstring : List Char) (permute : Bool) :
    ∀ (args : List String) (skip : Bool), (∀ a ∈ args, isOptionArg a = false) →
      scanArgs optstring permute skip args = [] := by
  intro args
  induction args with
  | nil => intro skip _; cases skip <;> rfl
  | cons a rest ih =>
    intro skip h
    have hrest : ∀ b ∈ rest, isOptionArg b = false := fun b hb => h b (by simp [hb])
    cases skip with
    | true => simp only [scanArgs]; exact ih false hrest
    | false =>
      simp only [scanArgs]
      by_cases hdd : a = "--"
      · simp [hdd]
      · simp only [hdd, if_false]
        have ha := h a (by simp)
        unfold isOptionArg at ha
        split
        · rename_i c cs hdata
          rw [hdata] at ha
          simp at ha
        · cases permute with
          | true => simp only [if_true]; exact ih false hrest
          | false => simp

/-! ## Number conversion on texts without a number -/

/-- Without a leading digit there is nothing to read: `atoi` gives 0. -/
theorem atoi_of_no_digit (t : String) (h : beginsWithDigit t.data = false) : atoi t = 0 := by
  unfold beginsWithDigit at h
  have hv : digitsValue (takeSign (t.data.dropWhile isspace)).2 0 = 0 := by
    cases hp : (takeSign (t.data.dropWhile isspace)).2 with
    | nil => rfl
    | cons c cs =>
      rw [hp] at h
      simp only at h
      simp [digitsValue, h]
  unfold atoi strtol
  simp only [hv]
  simp [toInt32]

/-- Without a leading number `atof` gives 0. -/
theorem atof_of_no_number (t : String)
    (h : startsNumber (takeSign (t.data.dropWhile isspace)).2 = false) :
    atof t = CDouble.ofInt 0 := by
  simp [atof, h]

/-- A value flag followed by a separate argument: `getopt` reports the flag
with that argument, whatever the argument is. -/
theorem getoptResults_flag (permute : Bool) (prog t : String) :
    getoptResults permute [prog, "-s", t] = [{ c := 's', optarg := some t, optopt := 63 }]
    ∧ getoptResults permute [prog, "-x", t] = [{ c := 'x', optarg := some t, optopt := 63 }]
    ∧ getoptResults permute [prog, "-y", t] = [{ c := 'y', optarg := some t, optopt := 63 }]
    ∧ getoptResults permute [prog, "-f", t] = [{ c := 'f', optarg := some t, optopt := 63 }] :=
  ⟨rfl, rfl, rfl, rfl⟩

/-! ## The claims on option parsing -/

/-- The parsing loop leaves with `return 1` only at a `?` result that comes
after value options. -/
theorem parseOptions_exit_one (argv0 : String) :
    ∀ (evs : List GetoptResult) (cfg : Config) (out : List String),
      parseOptions argv0 cfg evs = ParseResult.stop (Exit.code 1) out →
      ∃ pre r post, evs = pre ++ r :: post ∧ r.c = '?'
        ∧ ∀ e ∈ pre, isValueOpt e.c = true := by
  intro evs
  induction evs with
  | nil => intro cfg out h; simp [parseOptions] at h
  | cons r rs ih =>
    intro cfg out h
    rcases getoptResult_cases r with ⟨hv, a, ha⟩ | hh | hq | ho
    · rw [parseOptions_value argv0 cfg r rs a hv ha] at h
      obtain ⟨pre, q, post, he, hq, hpre⟩ := ih _ _ h
      refine ⟨r :: pre, q, post, by rw [he]; rfl, hq, ?_⟩
      intro e he2
      rcases List.mem_cons.mp he2 with rfl | he2
      · exact hv
      · exact hpre e he2
    · rw [parseOptions_help argv0 cfg r rs hh] at h; simp at h
    · exact ⟨[], r, rs, rfl, hq, by simp⟩
    · rw [parseOptions_other argv0 cfg r rs ho] at h; simp at h

/-- A `?` result before any `h`, among results of the kinds `getopt` gives,
makes the parsing loop leave with `return 1`. -/
theorem parseOptions_reaches_unknown (argv0 : String) (r : GetoptResult)
    (post : List GetoptResult) (hr : r.c = '?') :
    ∀ (pre : List GetoptResult) (cfg : Config),
      (∀ e ∈ pre, (isValueOpt e.c = true ∧ ∃ a, e.optarg = some a) ∨ e.c = 'h' ∨ e.c = '?') →
      (∀ e ∈ pre, e.c ≠ 'h') →
      ∃ out, parseOptions argv0 cfg (pre ++ r :: post) = ParseResult.stop (Exit.code 1) out := by
  intro pre
  induction pre with
  | nil => intro cfg _ _; exact ⟨_, parseOptions_unknown argv0 cfg r post hr⟩
  | cons e es ih =>
    intro cfg hk hh
    rcases hk e (by simp) with ⟨hv, a, ha⟩ | h1 | h2
    · rw [List.cons_append, parseOptions_value argv0 cfg e _ a hv ha]
      exact ih _ (fun x hx => hk x (by simp [hx])) (fun x hx => hh x (by simp [hx]))
    · exact absurd h1 (hh e (by simp))
    · exact ⟨_, parseOptions_unknown argv0 cfg e _ h2⟩

/-- The results before the first `h` or `?` are value options with arguments. -/
theorem getoptResults_before (permute : Bool) (argv : List String)
    (pre : List GetoptResult) (r : GetoptResult) (post : List GetoptResult)
    (hev : getoptResults permute argv = pre ++ r :: post)
    (hpre : ∀ e ∈ pre, e.c ≠ 'h' ∧ e.c ≠ '?') :
    ∀ e ∈ pre, isValueOpt e.c = true ∧ ∃ a, e.optarg = some a := by
  intro e he
  have hmem : e ∈ scanArgs "s:x:y:f:h".data permute false (argv.drop 1) := by
    have : e ∈ getoptResults permute argv := by rw [hev]; simp [he]
    exact this
  rcases scanArgs_kinds permute _ false e hmem with hv | h1 | h2
  · exact hv
  · exact absurd h1 (hpre e he).1
  · exact absurd h2 (hpre e he).2

/-- C6: when no argument after `argv[0]` is scanned for options, option
parsing ends without leaving the process and hands on squareSize = 20,
boardSize = 11 x 7 and numFrames = 50, and `main` goes on to the camera
session with these; and whenever parsing hands on a configuration, every
field whose flag does not appear in the argument vector has its default. -/
theorem parseArgs_defaults (env : CameraEnv) (permute : Bool) (fuel : Nat)
    (argv : List String) :
    ((∀ a ∈ argv.drop 1, isOptionArg a = false) →
      parseArgs permute argv
          = ParseResult.proceed
              { squareSize := CDouble.ofInt 20, boardSize := { width := 11, height := 7 }
                numFrames := 50 }
      ∧ main env permute fuel argv
          = session env fuel
              { squareSize := CDouble.ofInt 20, boardSize := { width := 11, height := 7 }
                numFrames := 50 })
    ∧ (∀ cfg, parseArgs permute argv = ParseResult.proceed cfg →
        (¬ flagGiven 's' argv → cfg.squareSize = CDouble.ofInt 20)
        ∧ (¬ flagGiven 'x' argv → cfg.boardSize.width = 11)
        ∧ (¬ flagGiven 'y' argv → cfg.boardSize.height = 7)
        ∧ (¬ flagGiven 'f' argv → cfg.numFrames = 50)) := by
  constructor
  · intro h
    have hp : parseArgs permute argv = ParseResult.proceed defaultConfig := by
      unfold parseArgs getoptResults
      rw [scanArgs_no_options _ permute _ false h]
      rfl
    refine ⟨hp, ?_⟩
    unfold main
    rw [hp]
    rfl
  · intro cfg hparse
    unfold parseArgs at hparse
    obtain ⟨hall, hcfg⟩ := parseOptions_proceed _ _ _ _ hparse
    have horigin := scanArgs_origin permute (argv.drop 1) false (fun e he => (hall e he).1)
    have habsent : ∀ c, ¬ flagGiven c argv → ∀ e ∈ getoptResults permute argv, e.c ≠ c := by
      intro c hc e he hec
      apply hc
      obtain ⟨a, ha, rest, hr⟩ := horigin e he
      exact ⟨a, ha, rest, by rw [hr, hec]⟩
    obtain ⟨k1, k2, k3, k4⟩ := applyAll_keeps (getoptResults permute argv) defaultConfig
    rw [hcfg]
    exact ⟨fun h => k1 (habsent _ h), fun h => k2 (habsent _ h), fun h => k3 (habsent _ h),
      fun h => k4 (habsent _ h)⟩

/-- The usage text written out: the lines 48-53 with their padding. -/
theorem usageText_eq (argv0 : String) :
    usageText argv0
      = "usage: " ++ argv0
        ++ " [options]\nOptions:\n -s        size of square in mm\n -x        chessboard columns\n -y        chessboard rows\n -f        calibration frames\n" := by
  apply String.ext
  simp only [usageText, leftSetw, String.data_append]
  simp only [List.append_assoc]
  rfl

/-- C7: when the first result of `getopt` that is `h` or `?` is `h` (only
value options with their arguments come before it), `main` writes the usage
text (the line `usage: <argv[0]> [options]`, the line `Options:` and one
line per flag `-s`, `-x`, `-y`, `-f`) to the error stream and returns 0 out
of the parsing loop: the run consists of that one action, so no camera
device is created or opened and no frame is retrieved, whatever the camera
would do. -/
theorem help_returns_zero (env : CameraEnv) (permute : Bool) (fuel : Nat)
    (argv : List String) (pre : List GetoptResult) (r : GetoptResult)
    (post : List GetoptResult)
    (hev : getoptResults permute argv = pre ++ r :: post) (hr : r.c = 'h')
    (hpre : ∀ e ∈ pre, e.c ≠ 'h' ∧ e.c ≠ '?') :
    main env permute fuel argv
      = some
          { exit := Exit.code 0
            trace :=
              [Event.stderr
                ("usage: " ++ argv.headD ""
                  ++ " [options]\nOptions:\n -s        size of square in mm\n -x        chessboard columns\n -y        chessboard rows\n -f        calibration frames\n")] } := by
  have hp : parseArgs permute argv
      = ParseResult.stop (Exit.code 0) [usageText (argv.headD "")] := by
    unfold parseArgs
    rw [hev, parseOptions_append _ pre _ _ (getoptResults_before permute argv pre r post hev hpre),
      parseOptions_help _ _ r post hr]
  unfold main
  rw [hp, usageText_eq]
  rfl

/-- The diagnostic written out, by the two branches of lines 56-61. -/
theorem unknownOptionText_eq (optopt : Int) :
    (32 ≤ optopt ∧ optopt ≤ 126 →
      unknownOptionText optopt
        = "Unknown option \x60-" ++ String.mk [Char.ofNat optopt.toNat] ++ "\x27.\n")
    ∧ (¬ (32 ≤ optopt ∧ optopt ≤ 126) →
      unknownOptionText optopt
        = "Unknown option character \x60\\x"
          ++ String.mk (Nat.toDigits 16 (optopt % 4294967296).toNat) ++ "\x27.\n") := by
  constructor
  · intro h
    simp [unknownOptionText, isprint, h.1, h.2]
  · intro h
    have hp : isprint optopt = false := by
      simp only [isprint, Bool.and_eq_false_iff, decide_eq_false_iff_not]
      by_cases h1 : 32 ≤ optopt
      · exact Or.inr (fun h2 => h ⟨h1, h2⟩)
      · exact Or.inl h1
    simp [unknownOptionText, hp]

/-- C8: when the first result of `getopt` that is `h` or `?` is `?` (an
unknown option character, or a value option without its argument), `main`
writes the diagnostic to the error stream and returns 1, the run consisting
of that one action (no camera session).  The diagnostic names the option
character when `optopt` is printable (codes 32 .. 126) and otherwise gives
`optopt`, an `int`, as an unsigned 32-bit number in hexadecimal.  And option
parsing returns 1 exactly when `getopt` gives a `?` before any `h`. -/
theorem unknown_returns_one (env : CameraEnv) (permute : Bool) (fuel : Nat)
    (argv : List String) :
    (∀ (pre : List GetoptResult) (r : GetoptResult) (post : List GetoptResult),
      getoptResults permute argv = pre ++ r :: post → r.c = '?' →
      (∀ e ∈ pre, e.c ≠ 'h' ∧ e.c ≠ '?') →
      (32 ≤ r.optopt ∧ r.optopt ≤ 126 →
        main env permute fuel argv
          = some
              { exit := Exit.code 1
                trace :=
                  [Event.stderr
                    ("Unknown option \x60-" ++ String.mk [Char.ofNat r.optopt.toNat]
                      ++ "\x27.\n")] })
      ∧ (¬ (32 ≤ r.optopt ∧ r.optopt ≤ 126) →
        main env permute fuel argv
          = some
              { exit := Exit.code 1
                trace :=
                  [Event.stderr
                    ("Unknown option character \x60\\x"
                      ++ String.mk (Nat.toDigits 16 (r.optopt % 4294967296).toNat)
                      ++ "\x27.\n")] }))
    ∧ ((∃ out, parseArgs permute argv = ParseResult.stop (Exit.code 1) out)
        ↔ ∃ pre r post, getoptResults permute argv = pre ++ r :: post ∧ r.c = '?'
            ∧ ∀ e ∈ pre, e.c ≠ 'h') := by
  constructor
  · intro pre r post hev hr hpre
    have hp : parseArgs permute argv
        = ParseResult.stop (Exit.code 1) [unknownOptionText r.optopt] := by
      unfold parseArgs
      rw [hev, parseOptions_append _ pre _ _
        (getoptResults_before permute argv pre r post hev hpre),
        parseOptions_unknown _ _ r post hr]
    constructor
    · intro h
      unfold main
      rw [hp, (unknownOptionText_eq r.optopt).1 h]
      rfl
    · intro h
      unfold main
      rw [hp, (unknownOptionText_eq r.optopt).2 h]
      rfl
  · constructor
    · rintro ⟨out, h⟩
      unfold parseArgs at h
      obtain ⟨pre, r, post, he, hq, hpre⟩ := parseOptions_exit_one _ _ _ _ h
      refine ⟨pre, r, post, he, hq, ?_⟩
      intro e he2 hh
      have := hpre e he2
      rw [hh] at this
      simp [isValueOpt] at this
    · rintro ⟨pre, r, post, he, hq, hpre⟩
      unfold parseArgs
      rw [he]
      apply parseOptions_reaches_unknown _ r post hq pre _ _ hpre
      intro e he2
      have hmem : e ∈ scanArgs "s:x:y:f:h".data permute false (argv.drop 1) := by
        have : e ∈ getoptResults permute argv := by rw [he]; simp [he2]
        exact this
      exact scanArgs_kinds permute _ false e hmem

/-- C6 on `calib notes.txt` (no option: all defaults) and on `calib -x 9`
(the flag `-f` does not appear: `numFrames` keeps its default 50). -/
theorem parseArgs_defaults_witness :
    (∀ a ∈ ["calib", "notes.txt"].drop 1, isOptionArg a = false)
    ∧ parseArgs true ["calib", "notes.txt"]
        = ParseResult.proceed
            { squareSize := CDouble.ofInt 20, boardSize := { width := 11, height := 7 }
              numFrames := 50 }
    ∧ parseArgs true ["calib", "-x", "9"]
        = ParseResult.proceed
            { squareSize := CDouble.ofInt 20, boardSize := { width := 9, height := 7 }
              numFrames := 50 }
    ∧ ¬ flagGiven 'f' ["calib", "-x", "9"]
    ∧ (Config.mk (CDouble.ofInt 20) { width := 9, height := 7 } 50).numFrames = 50 :=
  have hno : ∀ a ∈ ["calib", "notes.txt"].drop 1, isOptionArg a = false := by decide
  have hx : parseArgs true ["calib", "-x", "9"]
      = ParseResult.proceed
          { squareSize := CDouble.ofInt 20, boardSize := { width := 9, height := 7 }
            numFrames := 50 } := by decide
  have hf : ¬ flagGiven 'f' ["calib", "-x", "9"] := by
    rintro ⟨a, ha, rest, hr⟩
    simp only [List.drop_succ_cons, List.drop_zero, List.mem_cons, List.mem_singleton,
      List.not_mem_nil, or_false] at ha
    rcases ha with rfl | rfl
    · exact absurd (List.cons.inj (List.cons.inj hr).2).1 (by decide)
    · exact absurd (List.cons.inj hr).1 (by decide)
  ⟨hno, ((parseArgs_defaults fullDetectionEnv true 0 ["calib", "notes.txt"]).1 hno).1, hx, hf,
    ((parseArgs_defaults fullDetectionEnv true 0 ["calib", "-x", "9"]).2 _ hx).2.2.2 hf⟩

/-- C7 on `calib -x 9 -h -z`: the value option before `-h` is worked off, the
unknown option after it is never looked at, the run is the usage text and
`return 0`. -/
theorem help_returns_zero_witness :
    getoptResults true ["calib", "-x", "9", "-h", "-z"]
        = [{ c := 'x', optarg := some "9", optopt := 63 }]
          ++ { c := 'h', optarg := none, optopt := 63 }
            :: [{ c := '?', optarg := none, optopt := 122 }]
    ∧ main fullDetectionEnv true 0 ["calib", "-x", "9", "-h", "-z"]
        = some
            { exit := Exit.code 0
              trace :=
                [Event.stderr
                  "usage: calib [options]\nOptions:\n -s        size of square in mm\n -x        chessboard columns\n -y        chessboard rows\n -f        calibration frames\n"] } :=
  ⟨by decide,
    help_returns_zero fullDetectionEnv true 0 ["calib", "-x", "9", "-h", "-z"]
      [{ c := 'x', optarg := some "9", optopt := 63 }]
      { c := 'h', optarg := none, optopt := 63 }
      [{ c := '?', optarg := none, optopt := 122 }] (by decide) rfl (by decide)⟩

/-- C8 on `calib -x 9 -z -h` (the unknown option `-z` comes before `-h`: the
run is the diagnostic naming `z` and `return 1`) and on `calib -é` (the
first byte 0xc3 of `é` is no option and not printable: the diagnostic
shows it as `ffffffc3`). -/
theorem unknown_returns_one_witness :
    getoptResults true ["calib", "-x", "9", "-z", "-h"]
        = [{ c := 'x', optarg := some "9", optopt := 63 }]
          ++ { c := '?', optarg := none, optopt := 122 }
            :: [{ c := 'h', optarg := none, optopt := 63 }]
    ∧ main fullDetectionEnv true 0 ["calib", "-x", "9", "-z", "-h"]
        = some { exit := Exit.code 1
                 trace := [Event.stderr "Unknown option \x60-z\x27.\n"] }
    ∧ getoptResults true ["calib", "-é"]
        = [] ++ { c := '?', optarg := none, optopt := -61 }
            :: [{ c := '?', optarg := none, optopt := -87 }]
    ∧ main fullDetectionEnv true 0 ["calib", "-é"]
        = some { exit := Exit.code 1
                 trace := [Event.stderr "Unknown option character \x60\\xffffffc3\x27.\n"] } :=
  ⟨by decide,
    ((unknown_returns_one fullDetectionEnv true 0 ["calib", "-x", "9", "-z", "-h"]).1
      [{ c := 'x', optarg := some "9", optopt := 63 }]
      { c := '?', optarg := none, optopt := 122 }
      [{ c := 'h', optarg := none, optopt := 63 }] (by decide) rfl (by decide)).1 (by decide),
    by decide,
    ((unknown_returns_one fullDetectionEnv true 0 ["calib", "-é"]).1
      []
      { c := '?', optarg := none, optopt := -61 }
      [{ c := '?', optarg := none, optopt := -87 }] (by decide) rfl (by decide)).2 (by decide)⟩

/-- C9 as stated fails: `5x` is not a well-formed integer, yet `-x 5x` sets
the board width to 5, not to 0 (`atoi` reads the leading digits). -/
theorem malformed_number_counterexample :
    wellFormedInt "5x".data = false
    ∧ parseArgs true ["calib", "-x", "5x"]
        = ParseResult.proceed
            { squareSize := CDouble.ofInt 20, boardSize := { width := 5, height := 7 }
              numFrames := 50 }
    ∧ (Config.mk (CDouble.ofInt 20) { width := 5, height := 7 } 50).boardSize.width ≠ 0 := by
  refine ⟨by decide, by decide, by decide⟩

/-- C9, amended: for each numeric flag and every argument text that does not
begin with a number (after white space and an optional sign: no digit for
`-x`, `-y`, `-f`; no digit, no point followed by a digit, no `inf` or `nan`
for `-s`), parsing neither fails nor leaves the process: the field is set
to 0 wherever the flag stands among the options, and `main` goes on to the
camera session and the collection loop with that 0, nothing checking it. -/
theorem malformed_number_zero (env : CameraEnv) (permute : Bool) (fuel : Nat)
    (prog t : String) :
    (beginsWithDigit t.data = false →
      (∀ (argv0 : String) (cfg : Config) (o : Int) (rest : List GetoptResult),
        parseOptions argv0 cfg ({ c := 'x', optarg := some t, optopt := o } :: rest)
            = parseOptions argv0 { cfg with boardSize := { cfg.boardSize with width := 0 } } rest
        ∧ parseOptions argv0 cfg ({ c := 'y', optarg := some t, optopt := o } :: rest)
            = parseOptions argv0 { cfg with boardSize := { cfg.boardSize with height := 0 } } rest
        ∧ parseOptions argv0 cfg ({ c := 'f', optarg := some t, optopt := o } :: rest)
            = parseOptions argv0 { cfg with numFrames := 0 } rest)
      ∧ main env permute fuel [prog, "-x", t]
          = session env fuel
              { squareSize := CDouble.ofInt 20, boardSize := { width := 0, height := 7 }
                numFrames := 50 }
      ∧ main env permute fuel [prog, "-y", t]
          = session env fuel
              { squareSize := CDouble.ofInt 20, boardSize := { width := 11, height := 0 }
                numFrames := 50 }
      ∧ main env permute fuel [prog, "-f", t]
          = session env fuel
              { squareSize := CDouble.ofInt 20, boardSize := { width := 11, height := 7 }
                numFrames := 0 })
    ∧ (startsNumber (takeSign (t.data.dropWhile isspace)).2 = false →
      (∀ (argv0 : String) (cfg : Config) (o : Int) (rest : List GetoptResult),
        parseOptions argv0 cfg ({ c := 's', optarg := some t, optopt := o } :: rest)
            = parseOptions argv0 { cfg with squareSize := CDouble.ofInt 0 } rest)
      ∧ main env permute fuel [prog, "-s", t]
          = session env fuel
              { squareSize := CDouble.ofInt 0, boardSize := { width := 11, height := 7 }
                numFrames := 50 }) := by
  obtain ⟨gs, gx, gy, gf⟩ := getoptResults_flag permute prog t
  constructor
  · intro h
    have h0 := atoi_of_no_digit t h
    refine ⟨?_, ?_, ?_, ?_⟩
    · intro argv0 cfg o rest
      simp [parseOptions, h0]
    · simp [main, parseArgs, gx, parseOptions, h0, defaultConfig]
    · simp [main, parseArgs, gy, parseOptions, h0, defaultConfig]
    · simp [main, parseArgs, gf, parseOptions, h0, defaultConfig]
  · intro h
    have h0 := atof_of_no_number t h
    refine ⟨?_, ?_⟩
    · intro argv0 cfg o rest
      simp [parseOptions, h0]
    · simp [main, parseArgs, gs, parseOptions, h0, defaultConfig]

/-- The amended C9 on the text `abc`: `-x abc` gives width 0 and `-s abc`
gives square size 0, and `main` enters the camera session with them. -/
theorem malformed_number_zero_witness :
    beginsWithDigit "abc".data = false
    ∧ main fullDetectionEnv true 0 ["calib", "-x", "abc"]
        = session fullDetectionEnv 0
            { squareSize := CDouble.ofInt 20, boardSize := { width := 0, height := 7 }
              numFrames := 50 }
    ∧ startsNumber (takeSign ("abc".data.dropWhile isspace)).2 = false
    ∧ main fullDetectionEnv true 0 ["calib", "-s", "abc"]
        = session fullDetectionEnv 0
            { squareSize := CDouble.ofInt 0, boardSize := { width := 11, height := 7 }
              numFrames := 50 } :=
  ⟨by decide,
    ((malformed_number_zero fullDetectionEnv true 0 "calib" "abc").1 (by decide)).2.1,
    by decide,
    ((malformed_number_zero fullDetectionEnv true 0 "calib" "abc").2 (by decide)).2⟩

end BaslerCalibration
